import Mathlib

/-
  Verification of the MilliSuono graph engine core
  (`include/core/Port.hpp`, `include/core/Node.hpp`, `include/core/GraphManager.hpp`,
   `src/core/GraphManager.cpp`, `src/core/Node.cpp`).

  Modelling conventions:
  * C++ `float` arithmetic is modelled over `ℚ` (exact rational arithmetic).
  * C++ `int` is modelled as `ℤ`; `static_cast<int>(float)` truncation toward
    zero is `truncToInt`.
  * `std::unordered_map<std::string, V>` is modelled as an association list
    `List (String × V)`; since an `unordered_map` holds at most one entry per
    key, `map.erase(key)` is modelled as removing every entry with that key
    (the two coincide on every state an `unordered_map` can represent), and
    `map[key] = v` replaces the first entry with that key or appends.
  * `nodes_` and `orderedNodes_` hold the same `shared_ptr`s in the C++ code;
    the value model reflects the shared mutation done by
    `GraphManager::prepare` (which iterates the node pointers and calls
    `Node::prepare` on each) by applying the node update in both containers.
  * Buffers (`std::vector<float>`) are `List ℚ`; a call
    `applyFadeIn(buffer, nFrames)` always receives `nFrames` = buffer length,
    so the buffer argument carries the frame count.
-/

namespace MilliSuono

/-- PortType from Port.hpp: enum class PortType { Audio, Control, Event }. -/
inductive PortType where
  | Audio
  | Control
  | Event
deriving DecidableEq

/-- Port from Port.hpp: a name together with its type. -/
structure Port where
  name : String
  type : PortType
deriving DecidableEq

/-- Whether a port is audio-typed (used by buffer allocation, which keeps only
ports with `port.type == PortType::Audio`). -/
def Port.isAudio (p : Port) : Bool :=
  p.type = PortType.Audio

/-- Truncation toward zero, modelling C++ `static_cast<int>` on a float value:
`Int.div` is T-division, which rounds the quotient of the (reduced) numerator
and denominator toward zero. -/
def truncToInt (q : ℚ) : ℤ :=
  Int.tdiv q.num (q.den : ℤ)

/-- Node state from Node.hpp: identity, port lists, the sample rate and block
size it was last prepared with, and the fade-in state (duration in ms, derived
sample count, current ramp position, active flag).  Field defaults mirror the
C++ member initializers. -/
structure Node where
  id : String
  inputPorts : List Port
  outputPorts : List Port
  sampleRate : ℤ
  blockSize : ℤ
  fadeInDurationMs : ℚ
  fadeInSamples : ℤ
  currentFadeInSample : ℤ
  fadeInActive : Bool
deriving DecidableEq

/-- A Node as the C++ constructor `Node(id)` builds it: given id and declared
ports, all other members at their initializer defaults (`sampleRate_ = 44100`,
`blockSize_ = 512`, `fadeInDurationMs_ = 50.0f`, `fadeInSamples_ = 0`,
`currentFadeInSample_ = 0`, `fadeInActive_ = false`). -/
def mkNode (id : String) (ins outs : List Port) : Node :=
  { id := id
    inputPorts := ins
    outputPorts := outs
    sampleRate := 44100
    blockSize := 512
    fadeInDurationMs := 50
    fadeInSamples := 0
    currentFadeInSample := 0
    fadeInActive := false }

/-- Node::updateFadeInSamples:
`fadeInSamples_ = static_cast<int>((fadeInDurationMs_ / 1000.0f) * sampleRate_)`. -/
def Node.updateFadeInSamples (nd : Node) : Node :=
  { nd with fadeInSamples := truncToInt (nd.fadeInDurationMs / 1000 * (nd.sampleRate : ℚ)) }

/-- Node::prepare: store sample rate and block size, recompute the fade-in
sample count, restart the ramp, activate iff the duration is positive. -/
def Node.prepare (nd : Node) (sampleRate blockSize : ℤ) : Node :=
  let nd1 := { nd with sampleRate := sampleRate, blockSize := blockSize }
  let nd2 := nd1.updateFadeInSamples
  { nd2 with currentFadeInSample := 0, fadeInActive := decide (nd2.fadeInDurationMs > 0) }

/-- Node::resetFadeIn: restart the ramp from sample 0, active iff the duration
is positive. -/
def Node.resetFadeIn (nd : Node) : Node :=
  { nd with currentFadeInSample := 0, fadeInActive := decide (nd.fadeInDurationMs > 0) }

/-- The loop body of Node::applyFadeIn: walk the buffer; while
`currentFadeInSample_ < fadeInSamples_` scale the sample by
`currentFadeInSample_ / fadeInSamples_` and advance; at the first index where
the guard fails, clear the active flag and stop (`break`), leaving the rest of
the buffer untouched.  Returns (buffer, currentFadeInSample_, fadeInActive_). -/
def fadeLoop (samples : ℤ) : ℤ → List ℚ → List ℚ × ℤ × Bool
  | cur, [] => ([], cur, true)
  | cur, x :: rest =>
      if cur < samples then
        let r := fadeLoop samples (cur + 1) rest
        (x * ((cur : ℚ) / (samples : ℚ)) :: r.1, r.2)
      else
        (x :: rest, cur, false)

/-- Node::applyFadeIn: no-op when the fade is inactive, otherwise run the ramp
loop over the buffer and store the updated ramp position and active flag. -/
def Node.applyFadeIn (nd : Node) (buffer : List ℚ) : List ℚ × Node :=
  if nd.fadeInActive then
    let r := fadeLoop nd.fadeInSamples nd.currentFadeInSample buffer
    (r.1, { nd with currentFadeInSample := r.2.1, fadeInActive := r.2.2 })
  else
    (buffer, nd)

/-- Division-checked variant of the fade loop: returns `none` exactly when the
gain quotient `currentFadeInSample_ / fadeInSamples_` would be evaluated with a
zero divisor (the C++ division by zero). -/
def fadeLoopChecked (samples : ℤ) : ℤ → List ℚ → Option (List ℚ × ℤ × Bool)
  | cur, [] => some ([], cur, true)
  | cur, x :: rest =>
      if cur < samples then
        if samples = 0 then none
        else
          match fadeLoopChecked samples (cur + 1) rest with
          | none => none
          | some r => some (x * ((cur : ℚ) / (samples : ℚ)) :: r.1, r.2)
      else
        some (x :: rest, cur, false)

/-- Division-checked variant of Node::applyFadeIn. -/
def Node.applyFadeInChecked (nd : Node) (buffer : List ℚ) : Option (List ℚ × Node) :=
  if nd.fadeInActive then
    match fadeLoopChecked nd.fadeInSamples nd.currentFadeInSample buffer with
    | none => none
    | some r => some (r.1, { nd with currentFadeInSample := r.2.1, fadeInActive := r.2.2 })
  else
    some (buffer, nd)

/-- Connection from GraphManager.hpp: a directed edge
`(fromNodeId, fromPortName) → (toNodeId, toPortName)`. -/
structure Connection where
  fromNodeId : String
  fromPortName : String
  toNodeId : String
  toPortName : String
deriving DecidableEq

/-- First-match association-list lookup, modelling `unordered_map::find`. -/
def alookup {α : Type} (l : List (String × α)) (k : String) : Option α :=
  match l with
  | [] => none
  | (k', v) :: rest => if k' = k then some v else alookup rest k

/-- Association-list assignment `m[k] = v`: replace the first entry with key
`k`, or append a new entry when the key is absent. -/
def aset {α : Type} (l : List (String × α)) (k : String) (v : α) : List (String × α) :=
  match l with
  | [] => [(k, v)]
  | (k', v') :: rest => if k' = k then (k, v) :: rest else (k', v') :: aset rest k v

/-- Association-list erasure `m.erase(k)`: drop every entry with key `k`
(an `unordered_map` holds at most one). -/
def aerase {α : Type} (l : List (String × α)) (k : String) : List (String × α) :=
  l.filter (fun p => ¬ p.1 = k)

/-- Key-set insertion, modelling `m[k] = {}` on the control/event maps (whose
values the engine only ever sets to the empty inner map): ensure `k` is a key. -/
def keyInsert (l : List String) (k : String) : List String :=
  if k ∈ l then l else l ++ [k]

/-- Key-set erasure on the control/event maps. -/
def keyErase (l : List String) (k : String) : List String :=
  l.filter (fun s => ¬ s = k)

/-- GraphManager state (GraphManager.hpp): node registry, execution-ordered
node list, connection list, per-node audio output buffers, the key sets of the
per-node control-value and event maps (their inner maps are only ever created
empty by the code under verification), sample rate, block size and the
prepared flag.  Defaults mirror the C++ member initializers. -/
structure GraphManager where
  nodes : List (String × Node)
  orderedNodes : List Node
  connections : List Connection
  audioBuffers : List (String × List (List ℚ))
  controlKeys : List String
  eventKeys : List String
  sampleRate : ℤ
  blockSize : ℤ
  isPrepared : Bool
deriving DecidableEq

/-- A freshly constructed GraphManager. -/
def GraphManager.init : GraphManager :=
  { nodes := []
    orderedNodes := []
    connections := []
    audioBuffers := []
    controlKeys := []
    eventKeys := []
    sampleRate := 44100
    blockSize := 512
    isPrepared := false }

/-- The audio buffers allocateBuffersForNode builds for a node: one zeroed
buffer of the current block size per audio-typed output port. -/
def audioAllocFor (blockSize : ℤ) (nd : Node) : List (List ℚ) :=
  (nd.outputPorts.filter Port.isAudio).map (fun _ => List.replicate blockSize.toNat (0 : ℚ))

/-- GraphManager::allocateBuffersForNode: look the node up; build one zeroed
audio buffer per audio output port; store them only when nonempty; create the
(empty) control-value and event maps for the node. -/
def GraphManager.allocateBuffersForNode (gm : GraphManager) (nodeId : String) : GraphManager :=
  match alookup gm.nodes nodeId with
  | none => gm
  | some node =>
      let buffers := audioAllocFor gm.blockSize node
      let gm1 :=
        if buffers.isEmpty then gm
        else { gm with audioBuffers := aset gm.audioBuffers nodeId buffers }
      { gm1 with
          controlKeys := keyInsert gm1.controlKeys nodeId
          eventKeys := keyInsert gm1.eventKeys nodeId }

/-- GraphManager::allocateBuffers: clear the three buffer maps, then allocate
for every registered node. -/
def GraphManager.allocateBuffers (gm : GraphManager) : GraphManager :=
  let gm0 := { gm with audioBuffers := [], controlKeys := [], eventKeys := [] }
  List.foldl (fun g p => g.allocateBuffersForNode p.1) gm0 gm.nodes

/-- GraphManager::createNode: reject (null, no mutation) when the id already
exists; otherwise register the node and append it to the execution-order list;
when the graph is already prepared, additionally prepare the new node with the
current sample rate and block size (a shared-pointer mutation visible through
both containers) and allocate its buffers.  Returns the new state and the
returned node pointer (`none` = nullptr). -/
def GraphManager.createNode (gm : GraphManager) (id : String) (node : Node) :
    GraphManager × Option Node :=
  if (alookup gm.nodes id).isSome then
    (gm, none)
  else
    if gm.isPrepared then
      let nd := node.prepare gm.sampleRate gm.blockSize
      let gm1 := { gm with
        nodes := aset gm.nodes id nd
        orderedNodes := gm.orderedNodes ++ [nd] }
      (gm1.allocateBuffersForNode id, some nd)
    else
      ({ gm with
          nodes := aset gm.nodes id node
          orderedNodes := gm.orderedNodes ++ [node] }, some node)

/-- GraphManager::disconnectAll: drop every connection whose source or
destination is the given node. -/
def GraphManager.disconnectAll (gm : GraphManager) (nodeId : String) : GraphManager :=
  { gm with connections :=
      gm.connections.filter (fun c => ¬ (c.fromNodeId = nodeId ∨ c.toNodeId = nodeId)) }

/-- GraphManager::removeNode: reject unknown ids; otherwise remove all
connections touching the node, erase it from the ordered list (by the node's
own id) and from the registry and all three buffer maps. -/
def GraphManager.removeNode (gm : GraphManager) (id : String) : GraphManager × Bool :=
  if (alookup gm.nodes id).isSome then
    let gm1 := gm.disconnectAll id
    ({ gm1 with
        orderedNodes := gm1.orderedNodes.filter (fun nd => ¬ nd.id = id)
        nodes := aerase gm1.nodes id
        audioBuffers := aerase gm1.audioBuffers id
        controlKeys := keyErase gm1.controlKeys id
        eventKeys := keyErase gm1.eventKeys id }, true)
  else
    (gm, false)

/-- GraphManager::connect: validate that both endpoints exist, then append the
connection (no port validation). -/
def GraphManager.connect (gm : GraphManager)
    (fromId fromPort toId toPort : String) : GraphManager :=
  if (alookup gm.nodes fromId).isNone then gm
  else if (alookup gm.nodes toId).isNone then gm
  else { gm with connections := gm.connections ++ [⟨fromId, fromPort, toId, toPort⟩] }

/-- The predicate GraphManager::disconnect matches connections against. -/
def connMatches (fromId fromPort toId toPort : String) (c : Connection) : Bool :=
  c.fromNodeId = fromId && c.fromPortName = fromPort &&
    c.toNodeId = toId && c.toPortName = toPort

/-- GraphManager::disconnect: erase every connection equal to the given tuple
(`std::remove_if` + `erase`), return whether anything was removed. -/
def GraphManager.disconnect (gm : GraphManager)
    (fromId fromPort toId toPort : String) : GraphManager × Bool :=
  if gm.connections.any (connMatches fromId fromPort toId toPort) then
    ({ gm with connections :=
        gm.connections.filter (fun c => ¬ connMatches fromId fromPort toId toPort c = true) },
      true)
  else
    (gm, false)

/-- GraphManager::clear: clear the registry, ordered list, connection list and
the three buffer maps.  (The C++ body touches nothing else: in particular it
leaves `isPrepared_`, `sampleRate_` and `blockSize_` as they were.) -/
def GraphManager.clear (gm : GraphManager) : GraphManager :=
  { gm with
      nodes := []
      orderedNodes := []
      connections := []
      audioBuffers := []
      controlKeys := []
      eventKeys := [] }

/-- GraphManager::prepare: store the format, call Node::prepare on every node
(the node objects are shared between the registry and the ordered list, so the
update is visible through both), allocate buffers, set the prepared flag.  The
C++ body performs no reordering of `orderedNodes_` and no cycle detection, and
has no failure path (`void` return, no error state). -/
def GraphManager.prepare (gm : GraphManager) (sampleRate blockSize : ℤ) : GraphManager :=
  let gm1 := { gm with
    sampleRate := sampleRate
    blockSize := blockSize
    nodes := gm.nodes.map (fun p : String × Node => (p.1, p.2.prepare sampleRate blockSize))
    orderedNodes := gm.orderedNodes.map (fun nd : Node => nd.prepare sampleRate blockSize) }
  let gm2 := gm1.allocateBuffers
  { gm2 with isPrepared := true }

/-- First index of a string in a list (list length when absent). -/
def idxOf (l : List String) (s : String) : ℕ :=
  match l with
  | [] => 0
  | x :: rest => if x = s then 0 else idxOf rest s + 1

/-- Whether an execution order is a valid topological order of a connection
list: every connection's source is scheduled no later than its destination. -/
def isTopoOrder (order : List String) (conns : List Connection) : Bool :=
  conns.all (fun c => idxOf order c.fromNodeId ≤ idxOf order c.toNodeId)

/-- Modelled from the spec: the body of `GraphManager::process` is absent from
the sources (only its declaration and the `summationBuffers_` member exist in
GraphManager.hpp), so the per-port fan-in summation is modelled from the
spec's words: contributing source buffers are summed sample-by-sample into a
scratch buffer cleared to silence before accumulation. -/
def sumBuffers (n : ℕ) (bufs : List (List ℚ)) : List ℚ :=
  bufs.foldl (fun acc b => List.zipWith (· + ·) acc b) (List.replicate n (0 : ℚ))

/-- Modelled from the spec: the body of `GraphManager::process` is absent from
the sources, so the audio-input gathering it performs for one node input port
is modelled from the spec's words: resolve all connections terminating at
`(toId, toPort)`, sum the contributing source buffers sample-by-sample into a
scratch buffer, and hand a buffer of silence to a port fed by zero
connections.  `srcOut` maps a source node id and output port name to that
output's buffer for the block of `n` frames. -/
def resolveInput (conns : List Connection) (srcOut : String → String → List ℚ)
    (toId toPort : String) (n : ℕ) : List ℚ :=
  let feeding := conns.filter (fun c => c.toNodeId = toId ∧ c.toPortName = toPort)
  sumBuffers n (feeding.map (fun c => srcOut c.fromNodeId c.fromPortName))

/-- A helper node with one audio input and one audio output. -/
def stereoNode (id : String) : Node :=
  mkNode id [⟨"in", PortType.Audio⟩] [⟨"out", PortType.Audio⟩]

/-- Failing input for the execution-order claim: create "A" then "B", connect
B.out → A.in (an acyclic graph whose only topological orders put "B" first),
then prepare. -/
def c1Graph : GraphManager :=
  let g1 := (GraphManager.init.createNode "A" (stereoNode "A")).1
  let g2 := (g1.createNode "B" (stereoNode "B")).1
  let g3 := g2.connect "B" "out" "A" "in"
  g3.prepare 44100 64

/-- Failing input for the cycle-rejection claim: two nodes connected in a
directed cycle A.out → B.in, B.out → A.in, then prepare. -/
def c2Graph : GraphManager :=
  let g1 := (GraphManager.init.createNode "A" (stereoNode "A")).1
  let g2 := (g1.createNode "B" (stereoNode "B")).1
  let g3 := g2.connect "A" "out" "B" "in"
  let g4 := g3.connect "B" "out" "A" "in"
  g4.prepare 44100 64

/-- Feed a node a sequence of blocks of constant 1.0 samples (block `k` holding
`ns[k]` frames), applying the fade-in to each block in turn, and concatenate
the faded output. -/
def runBlocks (nd : Node) (ns : List ℕ) : List ℚ × Node :=
  match ns with
  | [] => ([], nd)
  | n :: rest =>
      let r := nd.applyFadeIn (List.replicate n (1 : ℚ))
      let r' := runBlocks r.2 rest
      (r.1 ++ r'.1, r'.2)

/-- The expected faded output for constant 1.0 input and a 2205-sample ramp:
sample `i` is `i/2205` while `i < 2205` and `1.0` afterwards. -/
def fadeRamp (m : ℕ) : List ℚ :=
  (List.range m).map (fun i : ℕ => if i < 2205 then (i : ℚ) / 2205 else 1)

/-- Invariant tying a node's fade state to an abstract ramp position `c`:
either the fade is active at position `c ≤ S` with `S` ramp samples, or the
fade is inactive and the ramp is complete (`S ≤ c`). -/
def IsRamp (S c : ℤ) (nd : Node) : Prop :=
  nd.fadeInSamples = S ∧
    ((nd.fadeInActive = true ∧ nd.currentFadeInSample = c ∧ c ≤ S) ∨
      (nd.fadeInActive = false ∧ S ≤ c))


/-- A node state with the fade active but zero ramp samples (duration 0 after
truncation), used to witness the total-behaviour claim. -/
def c10Node : Node := { mkNode "w" [] [] with fadeInActive := true }

lemma alookup_aset_self {α : Type} (l : List (String × α)) (k : String) (v : α) :
    alookup (aset l k v) k = some v := by
  induction l with
  | nil => simp [aset, alookup]
  | cons p rest ih =>
      by_cases h : p.1 = k
      · simp [aset, h, alookup]
      · simp [aset, h, alookup, ih]

lemma alookup_aset_ne {α : Type} (l : List (String × α)) (k k' : String) (v : α)
    (h : k' ≠ k) : alookup (aset l k v) k' = alookup l k' := by
  have hk : ¬ k = k' := fun hh => h hh.symm
  induction l with
  | nil => simp [aset, alookup, hk]
  | cons p rest ih =>
      by_cases hp : p.1 = k
      · have hp' : ¬ p.1 = k' := by rw [hp]; exact hk
        simp [aset, hp, alookup, hk, hp', ih]
      · simp [aset, hp, alookup, ih]

lemma alookup_aerase_self {α : Type} (l : List (String × α)) (k : String) :
    alookup (aerase l k) k = none := by
  induction l with
  | nil => simp [aerase, alookup]
  | cons p rest ih =>
      by_cases hp : p.1 = k
      · simpa [aerase, hp] using ih
      · simpa [aerase, List.filter, hp, alookup] using ih

lemma mem_keyInsert_self (l : List String) (k : String) : k ∈ keyInsert l k := by
  by_cases h : k ∈ l <;> simp [keyInsert, h]

lemma not_mem_keyErase_self (l : List String) (k : String) : k ∉ keyErase l k := by
  simp [keyErase]

lemma alookup_isSome_of_mem_keys {α : Type} (l : List (String × α)) (k : String)
    (h : (alookup l k).isSome = true) : k ∈ l.map Prod.fst := by
  induction l with
  | nil => simp [alookup] at h
  | cons p rest ih =>
      by_cases hp : p.1 = k
      · simp [hp]
      · simp [alookup, hp] at h
        simp [ih h]



/-- C1: the claim states that after `GraphManager::prepare` the execution-order
list is a valid topological order of the connection graph.  The `prepare` body
in the sources performs no topological sort (it never calls the declared
`sortNodes` and never reorders `orderedNodes_`), so insertion order survives:
with nodes created in order "A", "B" and a connection B.out → A.in, after
`prepare` the schedule is still ["A", "B"], and the single connection has its
source scheduled strictly later than its destination — not a topological
order. -/
theorem claim_C1_prepare_keeps_insertion_order :
    c1Graph.connections = [⟨"B", "out", "A", "in"⟩] ∧
    c1Graph.orderedNodes.map Node.id = ["A", "B"] ∧
    isTopoOrder (c1Graph.orderedNodes.map Node.id) c1Graph.connections = false := by
  decide

/-- C2: the claim states that `GraphManager::prepare` rejects a cyclic
connection graph with an observable failure.  The `prepare` body in the
sources performs no cycle detection and has no failure path at all (`void`
return, no error state): on the two-node cycle A.out → B.in, B.out → A.in it
returns normally, sets the prepared flag, and schedules both nodes of the
cycle in insertion order (necessarily not a topological order). -/
theorem claim_C2_prepare_accepts_cycle :
    c2Graph.connections = [⟨"A", "out", "B", "in"⟩, ⟨"B", "out", "A", "in"⟩] ∧
    c2Graph.isPrepared = true ∧
    c2Graph.orderedNodes.map Node.id = ["A", "B"] ∧
    isTopoOrder (c2Graph.orderedNodes.map Node.id) c2Graph.connections = false := by
  decide

/-- C3 counterexample: `clear()` does not reset `isPrepared_`, so after
preparing a graph and clearing it the state is not equivalent to a freshly
constructed `GraphManager` (whose prepared flag is false). -/
theorem claim_C3_counterexample :
    ((GraphManager.init.prepare 48000 256).clear).isPrepared = true ∧
    GraphManager.init.isPrepared = false ∧
    ¬ (GraphManager.init.prepare 48000 256).clear = GraphManager.init := by
  decide

/-- C3 (amended): `clear()` empties the node registry, the ordered list, the
connection list and all three buffer maps, but leaves the prepared flag (and
the stored sample rate and block size) unchanged; the result therefore equals
a freshly constructed `GraphManager` only in those container fields. -/
theorem claim_C3_clear_resets_containers (gm : GraphManager) :
    gm.clear.nodes = [] ∧ gm.clear.orderedNodes = [] ∧ gm.clear.connections = [] ∧
    gm.clear.audioBuffers = [] ∧ gm.clear.controlKeys = [] ∧ gm.clear.eventKeys = [] ∧
    gm.clear.isPrepared = gm.isPrepared ∧ gm.clear.sampleRate = gm.sampleRate ∧
    gm.clear.blockSize = gm.blockSize :=
  ⟨rfl, rfl, rfl, rfl, rfl, rfl, rfl, rfl, rfl⟩

/-- C9: `disconnect` removes every connection equal to the given tuple (so
duplicates created by repeated identical `connect` calls are all deleted at
once), returns true exactly when at least one matching connection existed, and
keeps all non-matching connections in their original relative order (the
remaining list is the filter of the original). -/
theorem claim_C9_disconnect_removes_all_matches (gm : GraphManager)
    (fromId fromPort toId toPort : String) :
    (gm.disconnect fromId fromPort toId toPort).1 =
      { gm with connections :=
          gm.connections.filter (fun c => ¬ connMatches fromId fromPort toId toPort c = true) } ∧
    ((gm.disconnect fromId fromPort toId toPort).2 = true ↔
      ∃ c ∈ gm.connections, connMatches fromId fromPort toId toPort c = true) := by
  by_cases h : gm.connections.any (connMatches fromId fromPort toId toPort) = true
  · refine ⟨by simp [GraphManager.disconnect, h], ?_⟩
    simp [GraphManager.disconnect, h]
    exact List.any_eq_true.mp h
  · have hfalse : ∀ c ∈ gm.connections, connMatches fromId fromPort toId toPort c = false := by
      intro c hc
      cases hcm : connMatches fromId fromPort toId toPort c
      · rfl
      · exact absurd (List.any_eq_true.mpr ⟨c, hc, hcm⟩) h
    have hfilter : gm.connections.filter
        (fun c => ¬ connMatches fromId fromPort toId toPort c = true) = gm.connections := by
      refine List.filter_eq_self.mpr ?_
      intro c hc
      simp [hfalse c hc]
    have hres : gm.disconnect fromId fromPort toId toPort = (gm, false) := by
      simp only [GraphManager.disconnect, if_neg h]
    constructor
    · rw [hres]
      show gm = _
      rw [hfilter]
    · rw [hres]
      constructor
      · intro hc
        cases hc
      · rintro ⟨c, hc, hcm⟩
        rw [hfalse c hc] at hcm
        cases hcm



lemma fadeLoop_replicate_one (S : ℤ) (n : ℕ) (c : ℤ) :
    fadeLoop S c (List.replicate n (1 : ℚ)) =
      ((List.range n).map
          (fun i : ℕ => if c + (i : ℤ) < S then (((c + (i : ℤ)) : ℤ) : ℚ) / (S : ℚ) else 1),
        if c + (n : ℤ) ≤ S then c + (n : ℤ) else max c S,
        decide (n = 0) || decide (c + (n : ℤ) ≤ S)) := by
  induction n generalizing c with
  | zero =>
      simp only [List.replicate, fadeLoop, List.range_zero, List.map_nil, Nat.cast_zero,
        add_zero, Prod.mk.injEq]
      refine ⟨trivial, ?_, ?_⟩
      · by_cases h : c ≤ S
        · rw [if_pos h]
        · rw [if_neg h, max_eq_left (le_of_not_le h)]
      · simp
  | succ n ih =>
      rw [List.replicate_succ]
      by_cases hc : c < S
      · simp only [fadeLoop, if_pos hc, ih (c + 1), Prod.mk.injEq]
        refine ⟨?_, ?_, ?_⟩
        · rw [List.range_succ_eq_map, List.map_cons, List.map_map]
          congr 1
          · rw [if_pos (by omega : c + ((0 : ℕ) : ℤ) < S)]
            rw [one_mul]
            norm_num
          · congr 1
            funext i
            simp only [Function.comp_apply]
            have e : c + ((i.succ : ℕ) : ℤ) = c + 1 + (i : ℤ) := by push_cast; ring
            rw [e]
        · have e : c + ((n + 1 : ℕ) : ℤ) = c + 1 + (n : ℤ) := by push_cast; ring
          rw [e]
          by_cases h : c + 1 + (n : ℤ) ≤ S
          · rw [if_pos h, if_pos h]
          · rw [if_neg h, if_neg h, max_eq_right (by omega : c ≤ S),
              max_eq_right (by omega : c + 1 ≤ S)]
        · have e : c + ((n + 1 : ℕ) : ℤ) = c + 1 + (n : ℤ) := by push_cast; ring
          rw [e]
          by_cases hn : n = 0
          · subst hn
            simp only [decide_eq_true_eq]
            have h1 : c + 1 + ((0 : ℕ) : ℤ) ≤ S := by omega
            simp [h1]
            omega
          · simp [hn]
      · have hS : S ≤ c := le_of_not_lt hc
        simp only [fadeLoop, if_neg hc, Prod.mk.injEq]
        refine ⟨?_, ?_, ?_⟩
        · have hmap : ∀ i ∈ List.range (n + 1),
              (if c + (i : ℤ) < S then (((c + (i : ℤ)) : ℤ) : ℚ) / (S : ℚ) else 1) = 1 := by
            intro i _
            rw [if_neg (by omega)]
          rw [List.map_congr_left hmap, List.map_const', List.length_range,
            List.replicate_succ]
        · have h : ¬ c + ((n + 1 : ℕ) : ℤ) ≤ S := by push_cast; omega
          rw [if_neg h, max_eq_left hS]
        · have h : ¬ c + ((n + 1 : ℕ) : ℤ) ≤ S := by push_cast; omega
          simp [h]
          omega



lemma applyFadeIn_replicate_one (S c : ℤ) (nd : Node) (n : ℕ) (h : IsRamp S c nd) :
    (nd.applyFadeIn (List.replicate n 1)).1 =
      (List.range n).map
        (fun i : ℕ => if c + (i : ℤ) < S then (((c + (i : ℤ)) : ℤ) : ℚ) / (S : ℚ) else 1) ∧
    IsRamp S (min (c + (n : ℤ)) S) (nd.applyFadeIn (List.replicate n 1)).2 ∧
    (nd.applyFadeIn (List.replicate n 1)).2.fadeInDurationMs = nd.fadeInDurationMs := by
  obtain ⟨hS, hcase⟩ := h
  rcases hcase with ⟨hact, hcur, hle⟩ | ⟨hact, hge⟩
  · simp only [Node.applyFadeIn, hact, if_true, hS, hcur, fadeLoop_replicate_one]
    refine ⟨by trivial, ⟨by trivial, ?_⟩, by trivial⟩
    by_cases h2 : c + (n : ℤ) ≤ S
    · rw [min_eq_left h2]
      left
      refine ⟨?_, ?_, h2⟩
      · simp [h2]
      · simp [h2]
    · rw [min_eq_right (by omega : S ≤ c + (n : ℤ))]
      right
      have hn : ¬ n = 0 := by
        intro h0
        subst h0
        simp at h2
        omega
      refine ⟨?_, le_refl S⟩
      simp [h2, hn]
  · simp only [Node.applyFadeIn, hact, Bool.false_eq_true, if_false]
    refine ⟨?_, ?_, by trivial⟩
    · have hmap : ∀ i ∈ List.range n,
          (if c + (i : ℤ) < S then (((c + (i : ℤ)) : ℤ) : ℚ) / (S : ℚ) else 1) = 1 := by
        intro i _
        rw [if_neg (by omega)]
      rw [List.map_congr_left hmap, List.map_const', List.length_range]
    · rw [min_eq_right (by omega : S ≤ c + (n : ℤ))]
      exact ⟨hS, Or.inr ⟨hact, le_refl S⟩⟩

lemma runBlocks_replicate_one (S : ℤ) (ns : List ℕ) :
    ∀ (c : ℤ) (nd : Node), IsRamp S c nd →
      (runBlocks nd ns).1 =
        (List.range ns.sum).map
          (fun i : ℕ => if c + (i : ℤ) < S then (((c + (i : ℤ)) : ℤ) : ℚ) / (S : ℚ) else 1) ∧
      IsRamp S (min (c + (ns.sum : ℤ)) S) (runBlocks nd ns).2 ∧
      (runBlocks nd ns).2.fadeInDurationMs = nd.fadeInDurationMs := by
  induction ns with
  | nil =>
      intro c nd h
      refine ⟨by simp [runBlocks], ?_, rfl⟩
      obtain ⟨hS, hcase⟩ := h
      simp only [List.sum_nil, Nat.cast_zero, add_zero]
      rcases hcase with ⟨hact, hcur, hle⟩ | ⟨hact, hge⟩
      · rw [min_eq_left hle]
        exact ⟨hS, Or.inl ⟨hact, hcur, hle⟩⟩
      · rw [min_eq_right hge]
        exact ⟨hS, Or.inr ⟨hact, le_refl S⟩⟩
  | cons n rest ih =>
      intro c nd h
      obtain ⟨h1, h2, h3⟩ := applyFadeIn_replicate_one S c nd n h
      obtain ⟨g1, g2, g3⟩ := ih (min (c + (n : ℤ)) S) _ h2
      simp only [runBlocks]
      refine ⟨?_, ?_, ?_⟩
      · rw [h1, g1, List.sum_cons, List.range_add, List.map_append, List.map_map]
        congr 1
        symm
        apply List.map_congr_left
        intro i _
        simp only [Function.comp_apply]
        rcases le_or_lt (c + (n : ℤ)) S with hcn | hcn
        · rw [min_eq_left hcn]
          have e : c + ((n + i : ℕ) : ℤ) = c + (n : ℤ) + (i : ℤ) := by push_cast; ring
          rw [e]
        · rw [min_eq_right (le_of_lt hcn)]
          rw [if_neg (by push_cast; omega), if_neg (by omega)]
      · have e : min (min (c + (n : ℤ)) S + ((rest.sum : ℕ) : ℤ)) S
            = min (c + (((n :: rest).sum : ℕ) : ℤ)) S := by
          rw [List.sum_cons, Nat.cast_add]
          omega
        rw [← e]
        exact g2
      · rw [g3, h3]



lemma ramp_map_eq (m : ℕ) :
    (List.range m).map
        (fun i : ℕ => if (0 : ℤ) + (i : ℤ) < ((2205 : ℤ)) then
          ((((0 : ℤ) + (i : ℤ)) : ℤ) : ℚ) / (((2205 : ℤ)) : ℚ) else 1)
      = fadeRamp m := by
  simp only [fadeRamp]
  apply List.map_congr_left
  intro i _
  by_cases h : i < 2205
  · rw [if_pos (by omega : (0 : ℤ) + (i : ℤ) < ((2205 : ℤ))), if_pos h]
    push_cast
    ring
  · rw [if_neg (by omega : ¬ (0 : ℤ) + (i : ℤ) < ((2205 : ℤ))), if_neg h]

lemma prepared_fadeInSamples (bs : ℤ) :
    ((mkNode "osc" [] []).prepare 44100 bs).fadeInSamples = 2205 := by
  show truncToInt ((50 : ℚ) / 1000 * ((44100 : ℤ) : ℚ)) = 2205
  have h : ((50 : ℚ) / 1000 * ((44100 : ℤ) : ℚ)) = 2205 := by norm_num
  rw [truncToInt, h]
  norm_num

lemma prepared_fadeInActive (bs : ℤ) :
    ((mkNode "osc" [] []).prepare 44100 bs).fadeInActive = true := by
  show decide ((50 : ℚ) > 0) = true
  norm_num

/-- C4: a node freshly prepared with the default 50 ms fade-in at 44100 Hz has
a 2205-sample ramp; feeding it constant 1.0 input in consecutive blocks of any
sizes, accumulated output sample `i` equals `i/2205` for `i < 2205` and `1.0`
for `i ≥ 2205`; and calling `resetFadeIn()` at any point mid-ramp (after any
block sequence) restarts the same output sequence from sample 0. -/
theorem claim_C4_fade_in_ramp (bs : ℤ) (ns ms : List ℕ) :
    (runBlocks ((mkNode "osc" [] []).prepare 44100 bs) ns).1 = fadeRamp ns.sum ∧
    (runBlocks (Node.resetFadeIn
        (runBlocks ((mkNode "osc" [] []).prepare 44100 bs) ns).2) ms).1 = fadeRamp ms.sum := by
  have hramp : IsRamp 2205 0 ((mkNode "osc" [] []).prepare 44100 bs) := by
    refine ⟨prepared_fadeInSamples bs, Or.inl ⟨prepared_fadeInActive bs, rfl, by norm_num⟩⟩
  obtain ⟨o1, o2, o3⟩ :=
    runBlocks_replicate_one 2205 ns 0 ((mkNode "osc" [] []).prepare 44100 bs) hramp
  constructor
  · rw [o1]
    exact ramp_map_eq ns.sum
  · have hd1 : (runBlocks ((mkNode "osc" [] []).prepare 44100 bs) ns).2.fadeInDurationMs
        = 50 := by
      rw [o3]
      rfl
    have hact2 : (Node.resetFadeIn
        (runBlocks ((mkNode "osc" [] []).prepare 44100 bs) ns).2).fadeInActive = true := by
      show decide ((runBlocks ((mkNode "osc" [] []).prepare 44100 bs) ns).2.fadeInDurationMs
        > 0) = true
      rw [hd1]
      norm_num
    have hramp2 : IsRamp 2205 0 (Node.resetFadeIn
        (runBlocks ((mkNode "osc" [] []).prepare 44100 bs) ns).2) := by
      refine ⟨o2.1, Or.inl ⟨hact2, rfl, by norm_num⟩⟩
    obtain ⟨p1, _, _⟩ := runBlocks_replicate_one 2205 ms 0 _ hramp2
    rw [p1]
    exact ramp_map_eq ms.sum

lemma fadeLoopChecked_eq (S : ℤ) (buf : List ℚ) : ∀ c : ℤ, 0 ≤ c →
    fadeLoopChecked S c buf = some (fadeLoop S c buf) := by
  induction buf with
  | nil => intro c _; rfl
  | cons x rest ih =>
      intro c hc
      by_cases h : c < S
      · have hS0 : ¬ S = 0 := by omega
        simp only [fadeLoopChecked, fadeLoop, if_pos h, if_neg hS0, ih (c + 1) (by omega)]
      · simp only [fadeLoopChecked, fadeLoop, if_neg h]

lemma fadeLoop_cur_lower (S : ℤ) (buf : List ℚ) : ∀ c : ℤ, c ≤ (fadeLoop S c buf).2.1 := by
  induction buf with
  | nil => intro c; simp [fadeLoop]
  | cons x rest ih =>
      intro c
      by_cases h : c < S
      · have := ih (c + 1)
        simp only [fadeLoop, if_pos h]
        omega
      · simp [fadeLoop, if_neg h]

/-- C10: `applyFadeIn` is total and never divides by zero: (a) on every node
state with a nonnegative ramp position (true of every reachable state), the
division-checked variant returns `some` of the unchecked result, i.e. the gain
quotient is never evaluated with `fadeInSamples_ = 0`; (b) the loop guard
`currentFadeInSample_ < fadeInSamples_` together with a nonnegative ramp
position forces `fadeInSamples_ ≥ 1` at the division; (c) when
`fadeInSamples_` is 0 and the fade is active, the first loop iteration
deactivates the fade and returns with the buffer unmodified and the ramp
position unchanged; (d) `applyFadeIn` preserves nonnegativity of the ramp
position. -/
theorem claim_C10_applyFadeIn_total :
    (∀ (nd : Node) (buf : List ℚ), 0 ≤ nd.currentFadeInSample →
        nd.applyFadeInChecked buf = some (nd.applyFadeIn buf)) ∧
    (∀ S c : ℤ, 0 ≤ c → c < S → 1 ≤ S) ∧
    (∀ (nd : Node) (buf : List ℚ), nd.fadeInSamples = 0 → nd.fadeInActive = true →
        0 ≤ nd.currentFadeInSample → ¬ buf = [] →
        (nd.applyFadeIn buf).1 = buf ∧ (nd.applyFadeIn buf).2.fadeInActive = false ∧
          (nd.applyFadeIn buf).2.currentFadeInSample = nd.currentFadeInSample) ∧
    (∀ (nd : Node) (buf : List ℚ), 0 ≤ nd.currentFadeInSample →
        0 ≤ ((nd.applyFadeIn buf).2).currentFadeInSample) := by
  refine ⟨?_, ?_, ?_, ?_⟩
  · intro nd buf hc
    by_cases hact : nd.fadeInActive = true
    · simp only [Node.applyFadeIn, Node.applyFadeInChecked, hact, if_true,
        fadeLoopChecked_eq nd.fadeInSamples buf nd.currentFadeInSample hc]
    · have hf : nd.fadeInActive = false := by
        revert hact
        cases nd.fadeInActive <;> simp
      simp [Node.applyFadeIn, Node.applyFadeInChecked, hf]
  · intro S c h0 hlt
    omega
  · intro nd buf hS hact hc hne
    cases buf with
    | nil => exact absurd rfl hne
    | cons x rest =>
        have hnot : ¬ nd.currentFadeInSample < nd.fadeInSamples := by omega
        refine ⟨?_, ?_, ?_⟩ <;>
          simp [Node.applyFadeIn, hact, fadeLoop, hnot]
  · intro nd buf hc
    by_cases hact : nd.fadeInActive = true
    · have := fadeLoop_cur_lower nd.fadeInSamples buf nd.currentFadeInSample
      simp only [Node.applyFadeIn, hact, if_true]
      omega
    · have hf : nd.fadeInActive = false := by
        revert hact
        cases nd.fadeInActive <;> simp
      simp [Node.applyFadeIn, hf, hc]

/-- Witness for C10 at a concrete node state: active fade with zero ramp
samples and ramp position 0, on a nonempty concrete buffer. -/
theorem claim_C10_witness :
    Node.applyFadeInChecked c10Node [1, 2] = some (Node.applyFadeIn c10Node [1, 2]) ∧
    (1 : ℤ) ≤ 1 ∧
    ((c10Node.applyFadeIn [3, 4]).1 = [3, 4] ∧
      (c10Node.applyFadeIn [3, 4]).2.fadeInActive = false ∧
      (c10Node.applyFadeIn [3, 4]).2.currentFadeInSample = c10Node.currentFadeInSample) ∧
    0 ≤ ((c10Node.applyFadeIn [5]).2).currentFadeInSample :=
  ⟨claim_C10_applyFadeIn_total.1 c10Node [1, 2] (by decide),
    claim_C10_applyFadeIn_total.2.1 1 0 (by decide) (by decide),
    claim_C10_applyFadeIn_total.2.2.1 c10Node [3, 4] (by decide) (by decide) (by decide)
      (by decide),
    claim_C10_applyFadeIn_total.2.2.2 c10Node [5] (by decide)⟩



lemma zipWith_add_replicate (n : ℕ) (a b : ℚ) :
    List.zipWith (· + ·) (List.replicate n a) (List.replicate n b)
      = List.replicate n (a + b) := by
  induction n with
  | zero => rfl
  | succ n ih => simp [List.replicate_succ, ih]

/-- C5: during block execution, an input port fed by several connections
receives the sample-by-sample sum of the contributing source buffers: with two
feeding connections whose sources hold constant 1.0 and constant 2.0, every
sample the node observes on the port is 3.0; a port fed by zero connections
receives a buffer of silence. -/
theorem claim_C5_fan_in_summation (conns : List Connection)
    (srcOut : String → String → List ℚ) (toId toPort : String) (n : ℕ) :
    (((conns.filter (fun c => c.toNodeId = toId ∧ c.toPortName = toPort)).map
          (fun c => srcOut c.fromNodeId c.fromPortName))
        = [List.replicate n (1 : ℚ), List.replicate n (2 : ℚ)] →
      resolveInput conns srcOut toId toPort n = List.replicate n (3 : ℚ)) ∧
    ((conns.filter (fun c => c.toNodeId = toId ∧ c.toPortName = toPort)) = [] →
      resolveInput conns srcOut toId toPort n = List.replicate n (0 : ℚ)) := by
  constructor
  · intro h
    simp only [resolveInput, h, sumBuffers, List.foldl_cons, List.foldl_nil,
      zipWith_add_replicate]
    norm_num
  · intro h
    simp only [resolveInput, h, sumBuffers, List.map_nil, List.foldl_nil]

/-- Witness for C5: two concrete connections feed C.in with constant 1.0 and
2.0 buffers of four samples, and port C.other is fed by none. -/
theorem claim_C5_witness :
    resolveInput [⟨"A", "out", "C", "in"⟩, ⟨"B", "out", "C", "in"⟩]
        (fun nid _ => if nid = "A" then List.replicate 4 (1 : ℚ) else List.replicate 4 (2 : ℚ))
        "C" "in" 4 = List.replicate 4 (3 : ℚ) ∧
    resolveInput [⟨"A", "out", "C", "in"⟩, ⟨"B", "out", "C", "in"⟩]
        (fun nid _ => if nid = "A" then List.replicate 4 (1 : ℚ) else List.replicate 4 (2 : ℚ))
        "C" "other" 4 = List.replicate 4 (0 : ℚ) :=
  ⟨(claim_C5_fan_in_summation _ _ "C" "in" 4).1 (by rfl),
    (claim_C5_fan_in_summation _ _ "C" "other" 4).2 (by rfl)⟩



lemma allocNode_nodes (g : GraphManager) (k : String) :
    (g.allocateBuffersForNode k).nodes = g.nodes := by
  cases hl : alookup g.nodes k with
  | none => simp [GraphManager.allocateBuffersForNode, hl]
  | some nd =>
      by_cases hemp : (audioAllocFor g.blockSize nd).isEmpty = true
      · simp [GraphManager.allocateBuffersForNode, hl, hemp]
      · simp [GraphManager.allocateBuffersForNode, hl, hemp]

lemma allocNode_blockSize (g : GraphManager) (k : String) :
    (g.allocateBuffersForNode k).blockSize = g.blockSize := by
  cases hl : alookup g.nodes k with
  | none => simp [GraphManager.allocateBuffersForNode, hl]
  | some nd =>
      by_cases hemp : (audioAllocFor g.blockSize nd).isEmpty = true
      · simp [GraphManager.allocateBuffersForNode, hl, hemp]
      · simp [GraphManager.allocateBuffersForNode, hl, hemp]

lemma allocNode_orderedNodes (g : GraphManager) (k : String) :
    (g.allocateBuffersForNode k).orderedNodes = g.orderedNodes := by
  cases hl : alookup g.nodes k with
  | none => simp [GraphManager.allocateBuffersForNode, hl]
  | some nd =>
      by_cases hemp : (audioAllocFor g.blockSize nd).isEmpty = true
      · simp [GraphManager.allocateBuffersForNode, hl, hemp]
      · simp [GraphManager.allocateBuffersForNode, hl, hemp]

lemma allocNode_connections (g : GraphManager) (k : String) :
    (g.allocateBuffersForNode k).connections = g.connections := by
  cases hl : alookup g.nodes k with
  | none => simp [GraphManager.allocateBuffersForNode, hl]
  | some nd =>
      by_cases hemp : (audioAllocFor g.blockSize nd).isEmpty = true
      · simp [GraphManager.allocateBuffersForNode, hl, hemp]
      · simp [GraphManager.allocateBuffersForNode, hl, hemp]

lemma allocNode_keys (g : GraphManager) (k : String) (nd : Node)
    (h : alookup g.nodes k = some nd) :
    k ∈ (g.allocateBuffersForNode k).controlKeys ∧
    k ∈ (g.allocateBuffersForNode k).eventKeys := by
  simp only [GraphManager.allocateBuffersForNode, h]
  exact ⟨mem_keyInsert_self _ _, mem_keyInsert_self _ _⟩

lemma allocNode_audio_lookup (g : GraphManager) (k : String) (nd : Node)
    (h : alookup g.nodes k = some nd) :
    alookup (g.allocateBuffersForNode k).audioBuffers k =
      if audioAllocFor g.blockSize nd = [] then alookup g.audioBuffers k
      else some (audioAllocFor g.blockSize nd) := by
  by_cases hemp : audioAllocFor g.blockSize nd = []
  · have he : (audioAllocFor g.blockSize nd).isEmpty = true := by
      rw [hemp]
      rfl
    simp [GraphManager.allocateBuffersForNode, h, he, hemp]
  · have he : ¬ (audioAllocFor g.blockSize nd).isEmpty = true := by
      simpa [List.isEmpty_iff] using hemp
    simp [GraphManager.allocateBuffersForNode, h, he, hemp, alookup_aset_self]

lemma allocNode_audio_ne (g : GraphManager) (k k' : String) (h : ¬ k' = k) :
    alookup (g.allocateBuffersForNode k).audioBuffers k' = alookup g.audioBuffers k' := by
  cases hl : alookup g.nodes k with
  | none => simp [GraphManager.allocateBuffersForNode, hl]
  | some nd =>
      by_cases hemp : (audioAllocFor g.blockSize nd).isEmpty = true
      · simp [GraphManager.allocateBuffersForNode, hl, hemp]
      · simp only [GraphManager.allocateBuffersForNode, hl, hemp, Bool.false_eq_true,
          if_false]
        exact alookup_aset_ne _ _ _ _ h



lemma removeNode_not_found (g : GraphManager) (k : String)
    (h : ¬ (alookup g.nodes k).isSome = true) : g.removeNode k = (g, false) := by
  simp [GraphManager.removeNode, h]

lemma allocNode_audio_empty (g : GraphManager) (k : String) (nd : Node)
    (h : alookup g.nodes k = some nd) (he : audioAllocFor g.blockSize nd = []) :
    (g.allocateBuffersForNode k).audioBuffers = g.audioBuffers := by
  have hemp : (audioAllocFor g.blockSize nd).isEmpty = true := by
    rw [he]
    rfl
  simp [GraphManager.allocateBuffersForNode, h, hemp]

/-- C6: `createNode` on an existing id returns null and mutates nothing; on a
fresh id it registers the node and appends it to the execution-order list,
returning it; when the graph is already prepared it additionally prepares the
new node with the current sample rate and block size, allocates its audio
buffers (one zeroed buffer of the current block size per audio output port,
stored only when the node has audio outputs) and creates its control/event map
entries; when unprepared, registration and appending is the entire mutation. -/
theorem claim_C6_createNode (gm : GraphManager) (id : String) (node : Node) :
    ((alookup gm.nodes id).isSome = true → gm.createNode id node = (gm, none)) ∧
    (alookup gm.nodes id = none →
      (gm.createNode id node).2
          = some (if gm.isPrepared then node.prepare gm.sampleRate gm.blockSize else node) ∧
      alookup (gm.createNode id node).1.nodes id
          = some (if gm.isPrepared then node.prepare gm.sampleRate gm.blockSize else node) ∧
      (gm.createNode id node).1.orderedNodes
          = gm.orderedNodes
              ++ [if gm.isPrepared then node.prepare gm.sampleRate gm.blockSize else node] ∧
      (gm.createNode id node).1.connections = gm.connections ∧
      (gm.isPrepared = false →
        (gm.createNode id node).1
          = { gm with
                nodes := aset gm.nodes id node
                orderedNodes := gm.orderedNodes ++ [node] }) ∧
      (gm.isPrepared = true →
        (if audioAllocFor gm.blockSize node = []
          then (gm.createNode id node).1.audioBuffers = gm.audioBuffers
          else alookup (gm.createNode id node).1.audioBuffers id
                = some (audioAllocFor gm.blockSize node)) ∧
        id ∈ (gm.createNode id node).1.controlKeys ∧
        id ∈ (gm.createNode id node).1.eventKeys)) := by
  constructor
  · intro h
    simp [GraphManager.createNode, h]
  · intro h
    have hns : ¬ (alookup gm.nodes id).isSome = true := by simp [h]
    by_cases hp : gm.isPrepared = true
    · have hstep1 : (gm.createNode id node).1 =
          GraphManager.allocateBuffersForNode
            { gm with
                nodes := aset gm.nodes id (node.prepare gm.sampleRate gm.blockSize)
                orderedNodes := gm.orderedNodes
                  ++ [node.prepare gm.sampleRate gm.blockSize] } id := by
        simp only [GraphManager.createNode]
        rw [if_neg hns, if_pos hp]
      have hstep2 : (gm.createNode id node).2
          = some (node.prepare gm.sampleRate gm.blockSize) := by
        simp only [GraphManager.createNode]
        rw [if_neg hns, if_pos hp]
      have hlook : alookup
          ({ gm with
              nodes := aset gm.nodes id (node.prepare gm.sampleRate gm.blockSize)
              orderedNodes := gm.orderedNodes
                ++ [node.prepare gm.sampleRate gm.blockSize] } : GraphManager).nodes id
          = some (node.prepare gm.sampleRate gm.blockSize) := alookup_aset_self _ _ _
      refine ⟨?_, ?_, ?_, ?_, ?_, ?_⟩
      · rw [hstep2]
        simp [hp]
      · rw [hstep1, allocNode_nodes]
        simp only [hp, if_true]
        exact hlook
      · rw [hstep1, allocNode_orderedNodes]
        simp only [hp, if_true]
      · rw [hstep1, allocNode_connections]
      · intro hfalse
        rw [hp] at hfalse
        cases hfalse
      · intro _
        refine ⟨?_, ?_, ?_⟩
        · by_cases he : audioAllocFor gm.blockSize node = []
          · rw [if_pos he, hstep1]
            exact allocNode_audio_empty _ id (node.prepare gm.sampleRate gm.blockSize)
              hlook he
          · rw [if_neg he, hstep1]
            rw [allocNode_audio_lookup _ id (node.prepare gm.sampleRate gm.blockSize) hlook]
            show (if audioAllocFor gm.blockSize node = [] then alookup gm.audioBuffers id
              else some (audioAllocFor gm.blockSize node)) = some (audioAllocFor gm.blockSize node)
            rw [if_neg he]
        · rw [hstep1]
          exact (allocNode_keys _ id (node.prepare gm.sampleRate gm.blockSize) hlook).1
        · rw [hstep1]
          exact (allocNode_keys _ id (node.prepare gm.sampleRate gm.blockSize) hlook).2
    · have hp' : gm.isPrepared = false := by
        revert hp
        cases gm.isPrepared <;> simp
      have hnp : ¬ gm.isPrepared = true := by simp [hp']
      have hstep1 : (gm.createNode id node).1 =
          { gm with
              nodes := aset gm.nodes id node
              orderedNodes := gm.orderedNodes ++ [node] } := by
        simp only [GraphManager.createNode]
        rw [if_neg hns, if_neg hnp]
      have hstep2 : (gm.createNode id node).2 = some node := by
        simp only [GraphManager.createNode]
        rw [if_neg hns, if_neg hnp]
      refine ⟨?_, ?_, ?_, ?_, fun _ => hstep1, ?_⟩
      · rw [hstep2]
        simp [hp']
      · rw [hstep1]
        simp only [hp', Bool.false_eq_true, if_false]
        exact alookup_aset_self _ _ _
      · rw [hstep1]
        simp only [hp', Bool.false_eq_true, if_false]
      · rw [hstep1]
      · intro htrue
        rw [hp'] at htrue
        cases htrue

/-- Witness for C6: a duplicate id is rejected without mutation, and a fresh
id on an unprepared graph is registered and returned. -/
theorem claim_C6_witness :
    (GraphManager.init.createNode "A" (stereoNode "A")).1.createNode "A" (stereoNode "B")
        = ((GraphManager.init.createNode "A" (stereoNode "A")).1, none) ∧
    (GraphManager.init.createNode "B" (stereoNode "B")).2 = some (stereoNode "B") :=
  ⟨(claim_C6_createNode (GraphManager.init.createNode "A" (stereoNode "A")).1 "A"
      (stereoNode "B")).1 (by rfl),
    ((claim_C6_createNode GraphManager.init "B" (stereoNode "B")).2 (by rfl)).1⟩

/-- C7: `removeNode` on a registered id returns true and cascades — afterwards
no connection touching the id remains, and the id is gone from the registry,
the ordered list and all three buffer maps; a second `removeNode` of the same
id then returns false and leaves the state unchanged. -/
theorem claim_C7_removeNode (gm : GraphManager) (id : String)
    (h : (alookup gm.nodes id).isSome = true) :
    (gm.removeNode id).2 = true ∧
    (∀ c ∈ (gm.removeNode id).1.connections, ¬ c.fromNodeId = id ∧ ¬ c.toNodeId = id) ∧
    alookup (gm.removeNode id).1.nodes id = none ∧
    (∀ nd ∈ (gm.removeNode id).1.orderedNodes, ¬ nd.id = id) ∧
    alookup (gm.removeNode id).1.audioBuffers id = none ∧
    id ∉ (gm.removeNode id).1.controlKeys ∧
    id ∉ (gm.removeNode id).1.eventKeys ∧
    (gm.removeNode id).1.removeNode id = ((gm.removeNode id).1, false) := by
  have hnodes : alookup (gm.removeNode id).1.nodes id = none := by
    simp only [GraphManager.removeNode, h, if_true]
    exact alookup_aerase_self _ _
  refine ⟨?_, ?_, hnodes, ?_, ?_, ?_, ?_, ?_⟩
  · simp [GraphManager.removeNode, h]
  · simp only [GraphManager.removeNode, h, if_true, GraphManager.disconnectAll]
    intro c hc
    have := List.of_mem_filter hc
    simpa using this
  · simp only [GraphManager.removeNode, h, if_true]
    intro nd hnd
    have := List.of_mem_filter hnd
    simpa using this
  · simp only [GraphManager.removeNode, h, if_true]
    exact alookup_aerase_self _ _
  · simp only [GraphManager.removeNode, h, if_true]
    exact not_mem_keyErase_self _ _
  · simp only [GraphManager.removeNode, h, if_true]
    exact not_mem_keyErase_self _ _
  · have hns : ¬ (alookup (gm.removeNode id).1.nodes id).isSome = true := by
      simp [hnodes]
    exact removeNode_not_found _ id hns

/-- Witness for C7: removing a registered node with a self-loop connection. -/
theorem claim_C7_witness :
    (((GraphManager.init.createNode "A" (stereoNode "A")).1.connect "A" "out" "A"
        "in").removeNode "A").2 = true ∧
    ((((GraphManager.init.createNode "A" (stereoNode "A")).1.connect "A" "out" "A"
        "in").removeNode "A").1.removeNode "A").2 = false := by
  have h := claim_C7_removeNode
    ((GraphManager.init.createNode "A" (stereoNode "A")).1.connect "A" "out" "A" "in") "A"
    (by rfl)
  refine ⟨h.1, ?_⟩
  rw [h.2.2.2.2.2.2.2]



lemma foldAlloc_nodes (l : List (String × Node)) :
    ∀ g : GraphManager,
      (List.foldl (fun g p => g.allocateBuffersForNode p.1) g l).nodes = g.nodes := by
  induction l with
  | nil => intro g; rfl
  | cons p rest ih =>
      intro g
      rw [List.foldl_cons, ih, allocNode_nodes]

lemma foldAlloc_audio (id : String) (nd : Node) (l : List (String × Node)) :
    ∀ g : GraphManager,
      alookup g.nodes id = some nd →
      alookup (List.foldl (fun g p => g.allocateBuffersForNode p.1) g l).audioBuffers id =
        if id ∈ l.map Prod.fst ∧ ¬ audioAllocFor g.blockSize nd = []
        then some (audioAllocFor g.blockSize nd)
        else alookup g.audioBuffers id := by
  induction l with
  | nil =>
      intro g _
      simp
  | cons p rest ih =>
      intro g hg
      rw [List.foldl_cons]
      have hg' : alookup (g.allocateBuffersForNode p.1).nodes id = some nd := by
        rw [allocNode_nodes]
        exact hg
      rw [ih (g.allocateBuffersForNode p.1) hg', allocNode_blockSize]
      simp only [List.map_cons, List.mem_cons]
      by_cases hk : p.1 = id
      · rw [hk]
        have hself := allocNode_audio_lookup g id nd hg
        by_cases hemp : audioAllocFor g.blockSize nd = []
        · rw [if_neg (by simp [hemp]), if_neg (by simp [hemp]), hself, if_pos hemp]
        · by_cases hmem : id ∈ List.map Prod.fst rest
          · rw [if_pos ⟨hmem, hemp⟩, if_pos ⟨Or.inl rfl, hemp⟩]
          · rw [if_neg (fun hx => hmem hx.1), hself, if_neg hemp,
              if_pos ⟨Or.inl rfl, hemp⟩]
      · rw [allocNode_audio_ne g p.1 id (fun hh => hk hh.symm)]
        by_cases hemp : audioAllocFor g.blockSize nd = []
        · rw [if_neg (by simp [hemp]), if_neg (by simp [hemp])]
        · by_cases hmem : id ∈ List.map Prod.fst rest
          · rw [if_pos ⟨hmem, hemp⟩, if_pos ⟨Or.inr hmem, hemp⟩]
          · rw [if_neg (fun hx => hmem hx.1),
              if_neg (fun hx => hx.1.elim (fun h1 => hk h1.symm) hmem)]

lemma prepare_nodes (gm : GraphManager) (sr bs : ℤ) :
    (gm.prepare sr bs).nodes
      = gm.nodes.map (fun p : String × Node => (p.1, p.2.prepare sr bs)) := by
  show (List.foldl (fun (g : GraphManager) (p : String × Node) =>
    g.allocateBuffersForNode p.1) _ _).nodes = _
  rw [foldAlloc_nodes]

lemma allocateBuffers_audio (g : GraphManager) (id : String) (nd : Node)
    (h : alookup g.nodes id = some nd) :
    alookup g.allocateBuffers.audioBuffers id =
      if ¬ audioAllocFor g.blockSize nd = []
      then some (audioAllocFor g.blockSize nd)
      else none := by
  simp only [GraphManager.allocateBuffers]
  have hg0 : alookup ({ g with audioBuffers := [], controlKeys := [], eventKeys := [] }
      : GraphManager).nodes id = some nd := h
  rw [foldAlloc_audio id nd g.nodes _ hg0]
  have hmem : id ∈ g.nodes.map Prod.fst :=
    alookup_isSome_of_mem_keys g.nodes id (by simp [h])
  by_cases hemp : audioAllocFor g.blockSize nd = []
  · rw [if_neg (fun hx => hx.2 hemp), if_neg (fun hx => hx hemp)]
    rfl
  · rw [if_pos ⟨hmem, hemp⟩, if_pos hemp]

/-- C8: after `prepare(sr, bs)` every registered node has exactly one audio
buffer per audio-typed output port, each of length exactly `bs` and zeroed,
whatever block size was previously in effect (`allocateBuffers` drops the old
maps and reallocates with the new block size). -/
theorem claim_C8_prepare_buffers (gm : GraphManager) (sr bs : ℤ) (id : String) (nd : Node)
    (h : alookup (gm.prepare sr bs).nodes id = some nd) :
    ((alookup (gm.prepare sr bs).audioBuffers id).getD []).length
        = (nd.outputPorts.filter Port.isAudio).length ∧
    ∀ b ∈ (alookup (gm.prepare sr bs).audioBuffers id).getD [],
      b = List.replicate bs.toNat (0 : ℚ) := by
  have hlook1 : alookup
      ({ gm with
          sampleRate := sr
          blockSize := bs
          nodes := gm.nodes.map (fun p : String × Node => (p.1, p.2.prepare sr bs))
          orderedNodes := gm.orderedNodes.map (fun nd : Node => nd.prepare sr bs) }
        : GraphManager).nodes id = some nd := by
    have h' := h
    rw [prepare_nodes] at h'
    exact h'
  have heq : alookup (gm.prepare sr bs).audioBuffers id
      = if ¬ audioAllocFor bs nd = [] then some (audioAllocFor bs nd) else none :=
    allocateBuffers_audio
      { gm with
          sampleRate := sr
          blockSize := bs
          nodes := gm.nodes.map (fun p : String × Node => (p.1, p.2.prepare sr bs))
          orderedNodes := gm.orderedNodes.map (fun nd : Node => nd.prepare sr bs) }
      id nd hlook1
  rw [heq]
  by_cases hemp : audioAllocFor bs nd = []
  · rw [if_neg (fun hx => hx hemp)]
    have hports : nd.outputPorts.filter Port.isAudio = [] := by
      have := hemp
      simp only [audioAllocFor, List.map_eq_nil_iff] at this
      exact this
    constructor
    · simp [hports]
    · intro b hb
      simp at hb
  · rw [if_pos hemp]
    constructor
    · simp [audioAllocFor]
    · intro b hb
      simp only [Option.getD_some, audioAllocFor, List.mem_map] at hb
      obtain ⟨_, _, hb⟩ := hb
      exact hb.symm

/-- Witness for C8: a one-node graph with one audio output port, prepared at
block size 8. -/
theorem claim_C8_witness :
    ((alookup (((GraphManager.init.createNode "A" (stereoNode "A")).1.prepare
          44100 8).audioBuffers) "A").getD []).length
      = (((stereoNode "A").prepare 44100 8).outputPorts.filter Port.isAudio).length :=
  (claim_C8_prepare_buffers (GraphManager.init.createNode "A" (stereoNode "A")).1
      44100 8 "A" ((stereoNode "A").prepare 44100 8) (by rfl)).1


end MilliSuono
